import Mathlib

/-
Verification of the coscms/session-sqlstore SQL session store.

The development shallowly embeds the Go package sqlstore (sqlstore.go and
cleanup.go).  A session value map (Go: map[interface{}]interface{}, with
string keys in every access the package performs) is modelled as an
association list with first-match lookup; the database table is a list of
rows; machine int64 values are modelled as Int (no arithmetic here comes
near overflow); fallible operations return Except, where the error value
Unit stands for a database error or a panic from a failed type assertion,
as documented at each definition.
-/

namespace SqlStore

/-- Model of a dynamically typed value (Go interface value) stored in a
session value map.  The package only ever reads int64 values out of the
map; vstr stands for any value of a non-int64 type. -/
inductive GoVal
  | vint (i : Int)
  | vstr (s : String)
  deriving DecidableEq

/-- A session value map: Go map with string keys, modelled as an
association list queried with first-match lookup. -/
abbrev Values := List (String × GoVal)

/-- Go delete(map, k): remove every binding of key k. -/
def eraseKey (vs : Values) (k : String) : Values :=
  vs.filter (fun p => !(p.1 == k))

/-- Go map assignment m[k] = v: bind k to v, shadowing any old binding. -/
def setKey (vs : Values) (k : String) (v : GoVal) : Values :=
  (k, v) :: eraseKey vs k

/-- Model of sessions.Session: identifier, value map and the IsNew flag. -/
structure Session where
  id : String
  values : Values
  isNew : Bool
  deriving DecidableEq

/-- Model of one row of the session table (struct sessionRow: columns id,
data, created, modified, expires).  The data column holds the gob
serialization of a value map; it is modelled as the map itself, with none
standing for a blob that gob deserialization rejects. -/
structure Row where
  id : String
  data : Option Values
  created : Int
  modified : Int
  expires : Int
  deriving DecidableEq

/-- Reading an optional int64 out of the value map, as insert and save do:
a missing key falls back to the given default, a present int64 is taken by
the unchecked type assertion created.(int64) / expires.(int64), and a
present value of any other type makes the assertion panic (modelled as
Except.error ()). -/
def readInt64Key (vs : Values) (k : String) (dflt : Int) : Except Unit Int :=
  match List.lookup k vs with
  | none => Except.ok dflt
  | some (GoVal.vint i) => Except.ok i
  | some _ => Except.error ()

/-- True when the unchecked int64 type assertion on the binding of key k
cannot panic: the key is absent or bound to an int64. -/
def intTypedB (vs : Values) (k : String) : Bool :=
  match List.lookup k vs with
  | some (GoVal.vstr _) => false
  | _ => true

/-- The three deletes insert and save perform on the value map before
serializing it: delete created, delete expires, delete modified (each key
carrying the store key prefix kp). -/
def stripMeta (kp : String) (vs : Values) : Values :=
  eraseKey (eraseKey (eraseKey vs (kp ++ "created")) (kp ++ "expires")) (kp ++ "modified")

/-- Execution of the prepared REPLACE INTO statement: the row replaces any
row with the same primary key id. -/
def replaceExec (db : List Row) (row : Row) : List Row :=
  db.filter (fun r => !(r.id == row.id)) ++ [row]

/-- Execution of the prepared UPDATE statement, whose SET list is exactly
data = ?, created = ?, expires = ? with WHERE id = ?: the modified column
is not in the SET list and is left untouched. -/
def updateExec (db : List Row) (id : String) (d : Option Values) (created expires : Int) :
    List Row :=
  db.map (fun r =>
    if r.id == id then { r with data := d, created := created, expires := expires } else r)

/-- Execution of the prepared DELETE FROM ... WHERE id = ? statement. -/
def deleteExec (db : List Row) (id : String) : List Row :=
  db.filter (fun r => !(r.id == id))

/-- Method MaxAge: the cookie max-age when nonzero, else the store max-age
when positive, else the engine default. -/
def sqlMaxAge (cookieMaxAge storeMaxAge defaultMaxAge : Int) : Int :=
  if cookieMaxAge = 0 then
    (if 0 < storeMaxAge then storeMaxAge else defaultMaxAge)
  else cookieMaxAge

/-- Method insert: read created (default now) and expires (default
now + max-age) from the value map by unchecked int64 assertion, set
modified to created, strip the three metadata keys from the map, serialize
it and execute REPLACE INTO.  The returned row is what the statement
writes; the returned session reflects the map mutation done by the three
deletes. -/
def insertOp (kp : String) (nowTs maxAge : Int) (sess : Session) :
    Except Unit (Row × Session) :=
  match readInt64Key sess.values (kp ++ "created") nowTs with
  | Except.error e => Except.error e
  | Except.ok createdAt =>
    match readInt64Key sess.values (kp ++ "expires") (nowTs + maxAge) with
    | Except.error e => Except.error e
    | Except.ok expiredAt =>
      Except.ok
        ({ id := sess.id, data := some (stripMeta kp sess.values),
           created := createdAt, modified := createdAt, expires := expiredAt },
         { sess with values := stripMeta kp sess.values })

/-- Expiry computation of the update path of method save: with no carried
expires value the candidate now + max-age is stored; with a carried int64
value the larger of it and the candidate is stored; a carried value of any
other type panics in expires.(int64). -/
def saveExpiredAt (carried : Option GoVal) (nowTs maxAge : Int) : Except Unit Int :=
  match carried with
  | none => Except.ok (nowTs + maxAge)
  | some (GoVal.vint e) =>
    Except.ok (if e < nowTs + maxAge then nowTs + maxAge else e)
  | some _ => Except.error ()

/-- Method save: a session still marked new is inserted (REPLACE INTO);
otherwise the update path reads created (default now), computes the stored
expiry via saveExpiredAt, strips the three metadata keys and executes the
UPDATE statement. -/
def saveMethod (kp : String) (nowTs maxAge : Int) (sess : Session) (db : List Row) :
    Except Unit (List Row × Session) :=
  if sess.isNew then
    match insertOp kp nowTs maxAge sess with
    | Except.error e => Except.error e
    | Except.ok (row, s2) => Except.ok (replaceExec db row, s2)
  else
    match readInt64Key sess.values (kp ++ "created") nowTs with
    | Except.error e => Except.error e
    | Except.ok createdAt =>
      match saveExpiredAt (List.lookup (kp ++ "expires") sess.values) nowTs maxAge with
      | Except.error e => Except.error e
      | Except.ok expiredAt =>
        Except.ok
          (updateExec db sess.id (some (stripMeta kp sess.values)) createdAt expiredAt,
           { sess with values := stripMeta kp sess.values })

/-- Method Remove: deleting an empty identifier is a no-op; otherwise the
DELETE statement runs and may fail (delFails injects the database error). -/
def RemoveOp (id : String) (db : List Row) (delFails : Bool) : List Row × Option Unit :=
  if id = "" then (db, none)
  else if delFails then (db, some ())
  else (deleteExec db id, none)

/-- Method Delete: first expire the response cookie (the Bool true in the
result), then clear every entry of the value map, and only then execute the
delete-by-identifier statement, whose error is returned as-is. -/
def DeleteOp (sess : Session) (db : List Row) (delFails : Bool) :
    Session × Bool × List Row × Option Unit :=
  let sess2 := { sess with values := ([] : Values) }
  let res := RemoveOp sess.id db delFails
  (sess2, true, res.1, res.2)

/-- The three metadata injections method load performs after
deserializing: the created, modified and expires columns are written into
the value map under the prefixed metadata keys, in that order. -/
def injectMeta (kp : String) (r : Row) (vs : Values) : Values :=
  setKey (setKey (setKey vs (kp ++ "created") (GoVal.vint r.created))
    (kp ++ "modified") (GoVal.vint r.modified)) (kp ++ "expires") (GoVal.vint r.expires)

/-- Error results of method load. -/
inductive LoadErr
  | noRows
  | expired
  | deserialize
  deriving DecidableEq

/-- Method load: select the row by the session identifier (no row gives
sql.ErrNoRows); a row with expires strictly below now logs the detection
(the Bool in the result) and returns ErrSessionExpired; otherwise the data
blob is deserialized and the created, modified and expires columns are
injected into the value map under the prefixed metadata keys.  The last
component is the table after the call: load runs only the SELECT statement
and never deletes. -/
def loadOp (kp : String) (nowTs : Int) (db : List Row) (sess : Session) :
    Except LoadErr Session × Bool × List Row :=
  match List.find? (fun r => r.id == sess.id) db with
  | none => (Except.error LoadErr.noRows, false, db)
  | some r =>
    if r.expires < nowTs then (Except.error LoadErr.expired, true, db)
    else
      match r.data with
      | none => (Except.error LoadErr.deserialize, false, db)
      | some vs =>
        (Except.ok { sess with values := injectMeta kp r vs }, false, db)

/-- Errors method New can return. -/
inductive NewErr
  | decodeFail
  | loadErr (e : LoadErr)
  deriving DecidableEq

/-- Method New: build a fresh is-new session; with no cookie return it with
a nil error; decode the cookie into the session identifier (decode models
securecookie.DecodeMulti), returning the decode error on failure; then load,
clearing IsNew on success and absorbing sql.ErrNoRows and ErrSessionExpired
into a nil error, while any other load error is returned. -/
def NewOp (kp : String) (nowTs : Int) (db : List Row)
    (decode : String → Except Unit String) (cookieVal : String) : Session × Option NewErr :=
  let session : Session := { id := "", values := [], isNew := true }
  if cookieVal = "" then (session, none)
  else
    match decode cookieVal with
    | Except.error _ => (session, some NewErr.decodeFail)
    | Except.ok sid =>
      let session := { session with id := sid }
      match (loadOp kp nowTs db session).1 with
      | Except.ok s => ({ s with isNew := false }, none)
      | Except.error LoadErr.noRows => (session, none)
      | Except.error LoadErr.expired => (session, none)
      | Except.error e => (session, some (NewErr.loadErr e))

/-- Alphabet of encoding/base32 StdEncoding. -/
def b32alphabet : List Char :=
  ['A', 'B', 'C', 'D', 'E', 'F', 'G', 'H', 'I', 'J', 'K', 'L', 'M', 'N', 'O', 'P',
   'Q', 'R', 'S', 'T', 'U', 'V', 'W', 'X', 'Y', 'Z', '2', '3', '4', '5', '6', '7']

/-- Character of the standard base32 alphabet at a 5-bit index. -/
def b32char (n : Nat) : Char := b32alphabet.getD n 'A'

/-- The eight base32 digits of a 40-bit group, most significant first. -/
def b32digits (x : Nat) : List Char :=
  [b32char (x / 2 ^ 35 % 32), b32char (x / 2 ^ 30 % 32), b32char (x / 2 ^ 25 % 32),
   b32char (x / 2 ^ 20 % 32), b32char (x / 2 ^ 15 % 32), b32char (x / 2 ^ 10 % 32),
   b32char (x / 2 ^ 5 % 32), b32char (x % 32)]

/-- A 40-bit group assembled big-endian from five input bytes. -/
def b32group (b0 b1 b2 b3 b4 : Nat) : List Char :=
  b32digits (b0 * 2 ^ 32 + b1 * 2 ^ 24 + b2 * 2 ^ 16 + b3 * 2 ^ 8 + b4)

/-- Model of base32.StdEncoding.EncodeToString on a byte list: full 5-byte
groups give 8 digits; a final partial group of 1, 2, 3 or 4 bytes is
zero-extended and gives 2, 4, 5 or 7 digits followed by 6, 4, 3 or 1
padding characters. -/
def base32Encode : List Nat → List Char
  | b0 :: b1 :: b2 :: b3 :: b4 :: rest => b32group b0 b1 b2 b3 b4 ++ base32Encode rest
  | [b0] => (b32group b0 0 0 0 0).take 2 ++ ['=', '=', '=', '=', '=', '=']
  | [b0, b1] => (b32group b0 b1 0 0 0).take 4 ++ ['=', '=', '=', '=']
  | [b0, b1, b2] => (b32group b0 b1 b2 0 0).take 5 ++ ['=', '=', '=']
  | [b0, b1, b2, b3] => (b32group b0 b1 b2 b3 0).take 7 ++ ['=']
  | [] => []

/-- Model of strings.TrimRight(s, pad): remove every trailing padding
character. -/
def trimRightEq : List Char → List Char
  | [] => []
  | c :: rest =>
    match trimRightEq rest with
    | [] => if c == '=' then [] else [c]
    | r => c :: r

/-- Identifier generation of method Save: base32-encode the random bytes
(securecookie.GenerateRandomKey(32) supplies 32 of them) and trim the
trailing padding characters. -/
def generateID (bs : List Nat) : List Char := trimRightEq (base32Encode bs)

/-- Method Save: with a negative cookie max-age, delegate to Delete.  With
an empty identifier, generate one from the random bytes, then insert
(REPLACE INTO); otherwise run method save.  Cookie encoding always
succeeds in this model (securecookie.EncodeMulti is not a source of the
behaviours claimed here). -/
def SaveOp (kp : String) (nowTs cookieMaxAge storeMaxAge defMaxAge : Int)
    (bs : List Nat) (sess : Session) (db : List Row) :
    Except Unit (List Row × Session) :=
  if cookieMaxAge < 0 then
    let res := DeleteOp sess db false
    match res.2.2.2 with
    | some _ => Except.error ()
    | none => Except.ok (res.2.2.1, res.1)
  else
    let maxAge := sqlMaxAge cookieMaxAge storeMaxAge defMaxAge
    if sess.id = "" then
      let sess2 := { sess with id := String.mk (generateID bs) }
      match insertOp kp nowTs maxAge sess2 with
      | Except.error e => Except.error e
      | Except.ok (row, s2) => Except.ok (replaceExec db row, s2)
    else
      saveMethod kp nowTs maxAge sess db

/-- Whether the data column holds the serialization of the empty value
map, i.e. whether char_length(data) equals sessions.EmptyGobSize(): the
gob encoding of the empty map is the unique blob of that minimal size. -/
def isEmptyPayload (d : Option Values) : Bool :=
  match d with
  | some [] => true
  | _ => false

/-- Semantics of the SQL built in gcMaxAgeSQL: DELETE FROM t WHERE
expires < now. -/
def execGcMaxAge (nowTs : Int) (db : List Row) : List Row :=
  db.filter (fun r => !(decide (r.expires < nowTs)))

/-- Semantics of the SQL built in gcEmptyDataSQL: DELETE FROM t WHERE
char_length(data) = EmptyGobSize AND created < cutoff, where the cutoff is
now minus emptyDataAge. -/
def execGcEmptyData (cutoff : Int) (db : List Row) : List Row :=
  db.filter (fun r => !(isEmptyPayload r.data && decide (r.created < cutoff)))

/-- Method deleteExpired, the body of one sweep pass: it executes the one
statement built from the field gcStmt plus the current unix time.  No such
field is declared on SQLStore (the struct declares gcMaxAgeSQL and
gcEmptyDataSQL, and only gcMaxAgeSQL matches the appended bare timestamp),
so the single statement is read as the delete-by-expiry statement; the
statement built in gcEmptyDataSQL is executed nowhere. -/
def deleteExpired (nowTs : Int) (db : List Row) : List Row :=
  execGcMaxAge nowTs db

/-- Events the cleanup background task can observe: a ticker tick or the
quit signal sent by StopCleanup. -/
inductive CEvent
  | tick
  | quit
  deriving DecidableEq

/-- Observable actions of the cleanup task: one sweep pass, or the
completion signal sent on the done channel just before the task returns. -/
inductive CAction
  | sweep
  | signalDone
  deriving DecidableEq

/-- Method cleanup as a trace function: the select loop consumes events in
order; each tick runs one sweep pass; on the quit signal the task sends
done and returns, so no later event is ever consumed.  StopCleanup sends
quit and then blocks on receiving done, which the task sends only on its
way out. -/
def cleanupRun : List CEvent → List CAction
  | [] => []
  | CEvent.quit :: _ => [CAction.signalDone]
  | CEvent.tick :: rest => CAction.sweep :: cleanupRun rest

/-! Helper lemmas about the value-map and table operations. -/

theorem lookup_eraseKey_ne (vs : Values) (k k2 : String) (h : k ≠ k2) :
    List.lookup k (eraseKey vs k2) = List.lookup k vs := by
  induction vs with
  | nil => rfl
  | cons p rest ih =>
    obtain ⟨a, b⟩ := p
    by_cases ha : a = k2
    · subst ha
      have hk : (k == a) = false := by simp [h]
      simp [eraseKey, List.lookup, hk] at ih ⊢
      exact ih
    · have ha2 : (a == k2) = false := by simp [ha]
      simp [eraseKey, List.lookup, ha2] at ih ⊢
      by_cases hk : k = a
      · subst hk; simp
      · have hk2 : (k == a) = false := by simp [hk]
        simp [hk2]
        exact ih

theorem lookup_setKey_ne (vs : Values) (k k2 : String) (v : GoVal) (h : k ≠ k2) :
    List.lookup k (setKey vs k2 v) = List.lookup k vs := by
  have hk : (k == k2) = false := by simp [h]
  simp [setKey, List.lookup, hk]
  exact lookup_eraseKey_ne vs k k2 h

theorem lookup_stripMeta_ne (kp : String) (vs : Values) (k : String)
    (h1 : k ≠ kp ++ "created") (h2 : k ≠ kp ++ "expires") (h3 : k ≠ kp ++ "modified") :
    List.lookup k (stripMeta kp vs) = List.lookup k vs := by
  unfold stripMeta
  rw [lookup_eraseKey_ne _ _ _ h3, lookup_eraseKey_ne _ _ _ h2,
    lookup_eraseKey_ne _ _ _ h1]

theorem find?_replaceExec (db : List Row) (row : Row) :
    List.find? (fun r => r.id == row.id) (replaceExec db row) = some row := by
  unfold replaceExec
  induction db with
  | nil => simp
  | cons r rest ih =>
    by_cases hr : r.id == row.id
    · simp only [List.filter_cons, hr, Bool.not_true, Bool.false_eq_true, if_false]
      exact ih
    · have hr2 : (r.id == row.id) = false := by simpa using hr
      simp only [List.filter_cons, hr2, Bool.not_false, if_true, List.cons_append,
        List.find?, hr2]
      exact ih

theorem updateExec_map_modified (db : List Row) (id : String) (d : Option Values)
    (c e : Int) : (updateExec db id d c e).map Row.modified = db.map Row.modified := by
  unfold updateExec
  rw [List.map_map]
  refine List.map_congr_left ?_
  intro a _
  by_cases h : a.id = id <;> simp [h]

theorem b32char_ne_pad (n : Nat) : b32char n ≠ '=' := by
  unfold b32char
  rcases Nat.lt_or_ge n 32 with h | h
  · unfold b32alphabet
    interval_cases n <;> decide
  · rw [List.getD_eq_default]
    · decide
    · simpa [b32alphabet] using h

theorem b32char_beq_pad (n : Nat) : (b32char n == '=') = false := by
  rw [beq_eq_false_iff_ne]
  exact b32char_ne_pad n

theorem b32digits_no_pad (x : Nat) : ∀ c ∈ b32digits x, (c == '=') = false := by
  intro c hc
  simp only [b32digits, List.mem_cons, List.not_mem_nil, or_false] at hc
  rcases hc with rfl | rfl | rfl | rfl | rfl | rfl | rfl | rfl <;> exact b32char_beq_pad _

theorem b32group_no_pad (a b c d e : Nat) :
    ∀ ch ∈ b32group a b c d e, (ch == '=') = false := by
  intro ch hch
  exact b32digits_no_pad _ ch hch

theorem trimRightEq_append_nil (xs ys : List Char) (h : trimRightEq ys = []) :
    trimRightEq (xs ++ ys) = trimRightEq xs := by
  induction xs with
  | nil => simpa using h
  | cons c xs ih =>
    simp only [List.cons_append, trimRightEq, List.append_eq]
    rw [ih]

theorem trimRightEq_no_pad (xs : List Char) (h : ∀ c ∈ xs, (c == '=') = false) :
    trimRightEq xs = xs := by
  induction xs with
  | nil => rfl
  | cons c xs ih =>
    have hc := h c (List.mem_cons_self c xs)
    have ih2 := ih (fun d hd => h d (List.mem_cons_of_mem c hd))
    simp only [trimRightEq, ih2]
    cases xs with
    | nil => simp [hc]
    | cons d ds => rfl

theorem base32Encode_len32
    (b0 b1 b2 b3 b4 b5 b6 b7 b8 b9 b10 b11 b12 b13 b14 b15 b16 b17 b18 b19
     b20 b21 b22 b23 b24 b25 b26 b27 b28 b29 b30 b31 : Nat) :
    ∃ data : List Char,
      base32Encode [b0, b1, b2, b3, b4, b5, b6, b7, b8, b9, b10, b11, b12, b13, b14,
        b15, b16, b17, b18, b19, b20, b21, b22, b23, b24, b25, b26, b27, b28, b29,
        b30, b31] = data ++ ['=', '=', '=', '='] ∧
      data.length = 52 ∧ ∀ c ∈ data, (c == '=') = false := by
  refine ⟨b32group b0 b1 b2 b3 b4 ++ b32group b5 b6 b7 b8 b9 ++
    b32group b10 b11 b12 b13 b14 ++ b32group b15 b16 b17 b18 b19 ++
    b32group b20 b21 b22 b23 b24 ++ b32group b25 b26 b27 b28 b29 ++
    (b32group b30 b31 0 0 0).take 4, rfl, rfl, ?_⟩
  intro c hc
  simp only [List.mem_append] at hc
  rcases hc with ((((((h | h) | h) | h) | h) | h) | h)
  · exact b32group_no_pad _ _ _ _ _ c h
  · exact b32group_no_pad _ _ _ _ _ c h
  · exact b32group_no_pad _ _ _ _ _ c h
  · exact b32group_no_pad _ _ _ _ _ c h
  · exact b32group_no_pad _ _ _ _ _ c h
  · exact b32group_no_pad _ _ _ _ _ c h
  · exact b32group_no_pad _ _ _ _ _ c (List.take_subset 4 _ h)

theorem generateID_spec (bs : List Nat) (h : bs.length = 32) :
    (generateID bs).length = 52 ∧ ∀ c ∈ generateID bs, c ≠ '=' := by
  rcases bs with _ | ⟨b0, bs⟩; · simp at h
  rcases bs with _ | ⟨b1, bs⟩; · simp at h
  rcases bs with _ | ⟨b2, bs⟩; · simp at h
  rcases bs with _ | ⟨b3, bs⟩; · simp at h
  rcases bs with _ | ⟨b4, bs⟩; · simp at h
  rcases bs with _ | ⟨b5, bs⟩; · simp at h
  rcases bs with _ | ⟨b6, bs⟩; · simp at h
  rcases bs with _ | ⟨b7, bs⟩; · simp at h
  rcases bs with _ | ⟨b8, bs⟩; · simp at h
  rcases bs with _ | ⟨b9, bs⟩; · simp at h
  rcases bs with _ | ⟨b10, bs⟩; · simp at h
  rcases bs with _ | ⟨b11, bs⟩; · simp at h
  rcases bs with _ | ⟨b12, bs⟩; · simp at h
  rcases bs with _ | ⟨b13, bs⟩; · simp at h
  rcases bs with _ | ⟨b14, bs⟩; · simp at h
  rcases bs with _ | ⟨b15, bs⟩; · simp at h
  rcases bs with _ | ⟨b16, bs⟩; · simp at h
  rcases bs with _ | ⟨b17, bs⟩; · simp at h
  rcases bs with _ | ⟨b18, bs⟩; · simp at h
  rcases bs with _ | ⟨b19, bs⟩; · simp at h
  rcases bs with _ | ⟨b20, bs⟩; · simp at h
  rcases bs with _ | ⟨b21, bs⟩; · simp at h
  rcases bs with _ | ⟨b22, bs⟩; · simp at h
  rcases bs with _ | ⟨b23, bs⟩; · simp at h
  rcases bs with _ | ⟨b24, bs⟩; · simp at h
  rcases bs with _ | ⟨b25, bs⟩; · simp at h
  rcases bs with _ | ⟨b26, bs⟩; · simp at h
  rcases bs with _ | ⟨b27, bs⟩; · simp at h
  rcases bs with _ | ⟨b28, bs⟩; · simp at h
  rcases bs with _ | ⟨b29, bs⟩; · simp at h
  rcases bs with _ | ⟨b30, bs⟩; · simp at h
  rcases bs with _ | ⟨b31, bs⟩; · simp at h
  have hb : bs = [] := by
    simpa using h
  subst hb
  obtain ⟨data, henc, hlen, hnp⟩ := base32Encode_len32 b0 b1 b2 b3 b4 b5 b6 b7 b8 b9
    b10 b11 b12 b13 b14 b15 b16 b17 b18 b19 b20 b21 b22 b23 b24 b25 b26 b27 b28 b29
    b30 b31
  have htrim : generateID [b0, b1, b2, b3, b4, b5, b6, b7, b8, b9, b10, b11, b12, b13,
      b14, b15, b16, b17, b18, b19, b20, b21, b22, b23, b24, b25, b26, b27, b28, b29,
      b30, b31] = data := by
    unfold generateID
    rw [henc, trimRightEq_append_nil data ['=', '=', '=', '='] (by decide),
      trimRightEq_no_pad _ hnp]
  rw [htrim]
  exact ⟨hlen, fun c hc => ne_of_beq_false (hnp c hc)⟩

theorem readInt64Key_ok (vs : Values) (k : String) (dflt : Int)
    (h : intTypedB vs k = true) : ∃ c, readInt64Key vs k dflt = Except.ok c := by
  unfold readInt64Key
  unfold intTypedB at h
  rcases hl : List.lookup k vs with _ | v
  · exact ⟨dflt, rfl⟩
  · rcases v with i | s
    · exact ⟨i, rfl⟩
    · rw [hl] at h
      simp at h

theorem insertOp_ok (kp : String) (nowTs maxAge : Int) (sess : Session)
    (hc : intTypedB sess.values (kp ++ "created") = true)
    (he : intTypedB sess.values (kp ++ "expires") = true) :
    ∃ c e, readInt64Key sess.values (kp ++ "created") nowTs = Except.ok c ∧
      readInt64Key sess.values (kp ++ "expires") (nowTs + maxAge) = Except.ok e ∧
      insertOp kp nowTs maxAge sess =
        Except.ok
          ({ id := sess.id, data := some (stripMeta kp sess.values),
             created := c, modified := c, expires := e },
           { sess with values := stripMeta kp sess.values }) := by
  obtain ⟨c, hcr⟩ := readInt64Key_ok sess.values (kp ++ "created") nowTs hc
  obtain ⟨e, her⟩ := readInt64Key_ok sess.values (kp ++ "expires") (nowTs + maxAge) he
  exact ⟨c, e, hcr, her, by rw [insertOp, hcr, her]⟩

theorem SaveOp_fresh (kp : String) (nowTs cma sma dma : Int) (bs : List Nat)
    (sess : Session) (db : List Row)
    (hid : sess.id = "") (hcma : ¬ cma < 0)
    (hc : intTypedB sess.values (kp ++ "created") = true)
    (he : intTypedB sess.values (kp ++ "expires") = true) :
    ∃ c e,
      readInt64Key sess.values (kp ++ "created") nowTs = Except.ok c ∧
      readInt64Key sess.values (kp ++ "expires")
        (nowTs + sqlMaxAge cma sma dma) = Except.ok e ∧
      SaveOp kp nowTs cma sma dma bs sess db =
        Except.ok
          (replaceExec db
            { id := String.mk (generateID bs), data := some (stripMeta kp sess.values),
              created := c, modified := c, expires := e },
           { sess with id := String.mk (generateID bs),
                       values := stripMeta kp sess.values }) := by
  obtain ⟨c, e, hcr, her, hins⟩ := insertOp_ok kp nowTs (sqlMaxAge cma sma dma)
    { sess with id := String.mk (generateID bs) } hc he
  refine ⟨c, e, hcr, her, ?_⟩
  simp only [SaveOp, if_neg hcma, if_pos hid, hins]

theorem loadOp_found (kp : String) (nowTs : Int) (db : List Row) (sess : Session)
    (row : Row) (hfind : List.find? (fun r => r.id == sess.id) db = some row) :
    loadOp kp nowTs db sess =
      if row.expires < nowTs then (Except.error LoadErr.expired, true, db)
      else
        match row.data with
        | none => (Except.error LoadErr.deserialize, false, db)
        | some vs =>
          (Except.ok { sess with values := injectMeta kp row vs }, false, db) := by
  unfold loadOp
  rw [hfind]

theorem lookup_injectMeta_ne (kp : String) (r : Row) (vs : Values) (k : String)
    (h1 : k ≠ kp ++ "created") (h2 : k ≠ kp ++ "expires") (h3 : k ≠ kp ++ "modified") :
    List.lookup k (injectMeta kp r vs) = List.lookup k vs := by
  unfold injectMeta
  rw [lookup_setKey_ne _ _ _ _ h2, lookup_setKey_ne _ _ _ _ h3,
    lookup_setKey_ne _ _ _ _ h1]

/-! Claim theorems. -/

/-- C1: the claim says one sweep pass deletes both the rows with
expires < now and the empty-payload rows with created < now - emptyDataAge.
Evaluating the sweep body as written at a failing input: with now = 100 and
emptyDataAge = 50, a table holding row a (expires 10) and row b (empty
payload, created 0, expires 1000) is swept to leave row b, although row b
satisfies the empty-data predicate that the never-executed gcEmptyDataSQL
statement would enforce (shown by the second conjunct). -/
theorem sweep_skips_empty_data_rows :
    deleteExpired 100
      [{ id := "a", data := some [("k", GoVal.vint 1)], created := 0, modified := 0,
         expires := 10 },
       { id := "b", data := some [], created := 0, modified := 0, expires := 1000 }] =
      [{ id := "b", data := some [], created := 0, modified := 0, expires := 1000 }] ∧
    execGcEmptyData (100 - 50)
      [{ id := "b", data := some [], created := 0, modified := 0, expires := 1000 }] =
      [] := by
  exact ⟨rfl, rfl⟩

/-- C2 (counterexample): the claim says the update path writes the
modified column on every save.  Concretely, saving an existing session at
now = 100 over a row whose modified is 5 rewrites data, created (to 100)
and expires (to 130) but leaves modified at 5, a value distinct from
every timestamp this save computes. -/
theorem update_does_not_write_modified_concrete :
    saveMethod "_" 100 30 { id := "s", values := [("k", GoVal.vint 1)], isNew := false }
      [{ id := "s", data := some [], created := 0, modified := 5, expires := 0 }] =
      Except.ok
        ([{ id := "s", data := some [("k", GoVal.vint 1)], created := 100, modified := 5,
            expires := 130 }],
         { id := "s", values := [("k", GoVal.vint 1)], isNew := false }) ∧
    (5 : Int) ≠ 100 := by
  exact ⟨rfl, by decide⟩

/-- C2 (amended): the insert path writes modified, setting it equal to the
created timestamp; the update path issues an UPDATE whose SET list has no
modified column, so an update of an existing session leaves the modified
column of every row unchanged. -/
theorem modified_written_only_on_insert :
    (∀ (kp : String) (nowTs maxAge : Int) (sess : Session) (r : Row) (s2 : Session),
        insertOp kp nowTs maxAge sess = Except.ok (r, s2) → r.modified = r.created) ∧
    (∀ (kp : String) (nowTs maxAge : Int) (sess : Session) (db db2 : List Row)
        (s2 : Session),
        sess.isNew = false → saveMethod kp nowTs maxAge sess db = Except.ok (db2, s2) →
        db2.map Row.modified = db.map Row.modified) := by
  constructor
  · intro kp nowTs maxAge sess r s2 h
    unfold insertOp at h
    rcases h1 : readInt64Key sess.values (kp ++ "created") nowTs with e1 | c <;>
      rw [h1] at h
    · simp at h
    rcases h2 : readInt64Key sess.values (kp ++ "expires") (nowTs + maxAge) with e2 | e <;>
      rw [h2] at h
    · simp at h
    simp only [Except.ok.injEq, Prod.mk.injEq] at h
    rw [← h.1]
  · intro kp nowTs maxAge sess db db2 s2 hnew h
    unfold saveMethod at h
    rw [hnew] at h
    simp only [Bool.false_eq_true, if_false] at h
    rcases h1 : readInt64Key sess.values (kp ++ "created") nowTs with e1 | c <;>
      rw [h1] at h
    · simp at h
    rcases h2 : saveExpiredAt (List.lookup (kp ++ "expires") sess.values) nowTs maxAge
      with e2 | e <;> rw [h2] at h
    · simp at h
    simp only [Except.ok.injEq, Prod.mk.injEq] at h
    rw [← h.1]
    exact updateExec_map_modified db sess.id _ c e

/-- C2 witness for the amended claim: a concrete update of an existing
session leaves the single row's modified column untouched. -/
theorem modified_written_only_on_insert_witness :
    saveMethod "_" 100 30 { id := "t", values := [], isNew := false }
      [{ id := "t", data := some [], created := 0, modified := 7, expires := 0 }] =
      Except.ok
        ([{ id := "t", data := some [], created := 100, modified := 7, expires := 130 }],
         { id := "t", values := [], isNew := false }) ∧
    ([{ id := "t", data := some [], created := 100, modified := 7,
        expires := 130 }].map Row.modified : List Int) =
      [{ id := "t", data := some ([] : Values), created := 0, modified := 7,
         expires := 0 }].map Row.modified := by
  refine ⟨rfl, ?_⟩
  exact modified_written_only_on_insert.2 "_" 100 30
    { id := "t", values := [], isNew := false }
    [{ id := "t", data := some [], created := 0, modified := 7, expires := 0 }]
    [{ id := "t", data := some [], created := 100, modified := 7, expires := 130 }]
    { id := "t", values := [], isNew := false } rfl rfl

/-- C3: the update path of save stores max(e, now + max-age) when the value
map carries an int64 expires value e, and now + max-age when it carries
none; the stored expiry of a full update is exactly that value; and across
two successive saves with a monotone clock where the second save carries the
first stored value, the stored expiry never decreases. -/
theorem save_expires_monotone :
    (∀ (e nowTs maxAge : Int),
        saveExpiredAt (some (GoVal.vint e)) nowTs maxAge =
          Except.ok (max e (nowTs + maxAge))) ∧
    (∀ (nowTs maxAge : Int),
        saveExpiredAt none nowTs maxAge = Except.ok (nowTs + maxAge)) ∧
    (∀ (kp : String) (nowTs maxAge e : Int) (sess : Session) (db : List Row),
        sess.isNew = false →
        List.lookup (kp ++ "expires") sess.values = some (GoVal.vint e) →
        intTypedB sess.values (kp ++ "created") = true →
        ∃ c, saveMethod kp nowTs maxAge sess db =
          Except.ok
            (updateExec db sess.id (some (stripMeta kp sess.values)) c
              (max e (nowTs + maxAge)),
             { sess with values := stripMeta kp sess.values })) ∧
    (∀ (e now1 now2 maxAge s1 s2 : Int), now1 ≤ now2 →
        saveExpiredAt (some (GoVal.vint e)) now1 maxAge = Except.ok s1 →
        saveExpiredAt (some (GoVal.vint s1)) now2 maxAge = Except.ok s2 →
        s1 ≤ s2) := by
  have hsome : ∀ (e nowTs maxAge : Int),
      saveExpiredAt (some (GoVal.vint e)) nowTs maxAge =
        Except.ok (max e (nowTs + maxAge)) := by
    intro e nowTs maxAge
    show Except.ok (if e < nowTs + maxAge then nowTs + maxAge else e) = _
    rw [max_def]
    congr 1
    split_ifs <;> omega
  refine ⟨hsome, ?_, ?_, ?_⟩
  · intro nowTs maxAge
    rfl
  · intro kp nowTs maxAge e sess db hnew hexp hc
    obtain ⟨c, hcr⟩ := readInt64Key_ok sess.values (kp ++ "created") nowTs hc
    refine ⟨c, ?_⟩
    unfold saveMethod
    rw [hnew]
    simp only [Bool.false_eq_true, if_false, hcr, hexp, hsome]
  · intro e now1 now2 maxAge s1 s2 hle h1 h2
    unfold saveExpiredAt at h1 h2
    simp only [Except.ok.injEq] at h1 h2
    split_ifs at h1 h2 <;> omega

/-- C3 witness: with a carried expiry of 100, max-age 10 and clock moving
from 0 to 1, the first save stores 100 and the second save does not store
less. -/
theorem save_expires_monotone_witness :
    saveExpiredAt (some (GoVal.vint 100)) 0 10 = Except.ok 100 ∧
    saveExpiredAt (some (GoVal.vint 100)) 1 10 = Except.ok 100 ∧
    (100 : Int) ≤ 100 := by
  exact ⟨rfl, rfl, save_expires_monotone.2.2.2 100 0 1 10 100 100 (by decide) rfl rfl⟩

/-- C4: saving a session with an empty identifier gives it a non-empty
identifier, and loading that identifier before expiry returns a value map
agreeing with the one the session had at save time on every key other than
the three prefixed metadata keys, which are stripped before serialization
and re-injected after load. -/
theorem save_then_load_roundtrip
    (kp : String) (now1 now2 cma sma dma : Int) (bs : List Nat)
    (sess : Session) (db db2 : List Row) (sess2 : Session)
    (hid : sess.id = "") (hbs : bs.length = 32) (hcma : ¬ cma < 0)
    (hc : intTypedB sess.values (kp ++ "created") = true)
    (he : intTypedB sess.values (kp ++ "expires") = true)
    (hsave : SaveOp kp now1 cma sma dma bs sess db = Except.ok (db2, sess2))
    (hnx : ∀ r, List.find? (fun x => x.id == sess2.id) db2 = some r →
      ¬ r.expires < now2) :
    sess2.id ≠ "" ∧
    ∃ s3, (loadOp kp now2 db2 { id := sess2.id, values := [], isNew := true }).1 =
        Except.ok s3 ∧
      ∀ k, k ≠ kp ++ "created" → k ≠ kp ++ "modified" → k ≠ kp ++ "expires" →
        List.lookup k s3.values = List.lookup k sess.values := by
  obtain ⟨c, e, hcr, her, heq⟩ :=
    SaveOp_fresh kp now1 cma sma dma bs sess db hid hcma hc he
  rw [heq] at hsave
  simp only [Except.ok.injEq, Prod.mk.injEq] at hsave
  obtain ⟨hdb2, hsess2⟩ := hsave
  subst hdb2
  subst hsess2
  obtain ⟨hlen, hnp⟩ := generateID_spec bs hbs
  constructor
  · intro h0
    simp only at h0
    have h1 : generateID bs = [] := congrArg String.data h0
    rw [h1] at hlen
    simp at hlen
  · have hfind := find?_replaceExec db
      { id := String.mk (generateID bs), data := some (stripMeta kp sess.values),
        created := c, modified := c, expires := e }
    have hnex := hnx _ hfind
    refine ⟨{ id := String.mk (generateID bs),
              values := injectMeta kp
                { id := String.mk (generateID bs),
                  data := some (stripMeta kp sess.values),
                  created := c, modified := c, expires := e }
                (stripMeta kp sess.values),
              isNew := true }, ?_, ?_⟩
    · rw [loadOp_found kp now2 _ _ _ hfind, if_neg hnex]
    · intro k hk1 hk2 hk3
      simp only
      rw [lookup_injectMeta_ne kp _ _ k hk1 hk3 hk2,
        lookup_stripMeta_ne kp _ k hk1 hk3 hk2]

/-- C5: loading an identifier whose row exists with an expiry strictly in
the past returns the distinct session-expired error (not the no-rows
error), logs the detection, and leaves the table untouched; a row whose
expiry equals now is not treated as expired. -/
theorem load_expired_distinct_error
    (kp : String) (nowTs : Int) (db : List Row) (sess : Session) (row : Row)
    (hfind : List.find? (fun r => r.id == sess.id) db = some row) :
    (row.expires < nowTs →
      loadOp kp nowTs db sess = (Except.error LoadErr.expired, true, db)) ∧
    (row.expires = nowTs →
      (loadOp kp nowTs db sess).1 ≠ Except.error LoadErr.expired ∧
      (loadOp kp nowTs db sess).1 ≠ Except.error LoadErr.noRows) ∧
    (loadOp kp nowTs db sess).2.2 = db := by
  have hfound := loadOp_found kp nowTs db sess row hfind
  refine ⟨?_, ?_, ?_⟩
  · intro hexp
    rw [hfound, if_pos hexp]
  · intro heq
    have hnl : ¬ row.expires < nowTs := by omega
    rw [hfound, if_neg hnl]
    cases hd : row.data <;> simp
  · rw [hfound]
    split_ifs
    · rfl
    · cases hd : row.data <;> rfl

/-- C6: New with an undecodable cookie returns a fresh is-new session and
the decode error; New with a decodable cookie whose row is missing or
expired absorbs the error and returns a fresh is-new session with a nil
error; a deserialization failure of an existing unexpired row is
propagated. -/
theorem new_error_contract
    (kp : String) (nowTs : Int) (db : List Row) (decode : String → Except Unit String)
    (cv sid : String) (row : Row) (hcv : cv ≠ "") :
    (decode cv = Except.error () →
      NewOp kp nowTs db decode cv =
        ({ id := "", values := [], isNew := true }, some NewErr.decodeFail)) ∧
    (decode cv = Except.ok sid → List.find? (fun r => r.id == sid) db = none →
      NewOp kp nowTs db decode cv = ({ id := sid, values := [], isNew := true }, none)) ∧
    (decode cv = Except.ok sid → List.find? (fun r => r.id == sid) db = some row →
      row.expires < nowTs →
      NewOp kp nowTs db decode cv = ({ id := sid, values := [], isNew := true }, none)) ∧
    (decode cv = Except.ok sid → List.find? (fun r => r.id == sid) db = some row →
      ¬ row.expires < nowTs → row.data = none →
      NewOp kp nowTs db decode cv =
        ({ id := sid, values := [], isNew := true },
         some (NewErr.loadErr LoadErr.deserialize))) := by
  refine ⟨?_, ?_, ?_, ?_⟩
  · intro hdec
    unfold NewOp
    rw [if_neg hcv, hdec]
  · intro hdec hfind
    unfold NewOp
    rw [if_neg hcv, hdec]
    simp only
    have : loadOp kp nowTs db { id := sid, values := [], isNew := true } =
        (Except.error LoadErr.noRows, false, db) := by
      unfold loadOp
      rw [hfind]
    rw [this]
  · intro hdec hfind hexp
    unfold NewOp
    rw [if_neg hcv, hdec]
    simp only
    rw [loadOp_found kp nowTs db _ row hfind, if_pos hexp]
  · intro hdec hfind hexp hdata
    unfold NewOp
    rw [if_neg hcv, hdec]
    simp only
    rw [loadOp_found kp nowTs db _ row hfind, if_neg hexp, hdata]

/-- Concrete row used to exercise the fresh-save round trip: the row a
fresh save of the map binding k to 7 writes at time 0 with max-age 10. -/
def c4row : Row :=
  { id := String.mk (generateID (List.replicate 32 0)),
    data := some [("k", GoVal.vint 7)], created := 0, modified := 0, expires := 10 }

/-- Concrete session resulting from that fresh save. -/
def c4sess : Session :=
  { id := String.mk (generateID (List.replicate 32 0)),
    values := [("k", GoVal.vint 7)], isNew := true }

/-- C4 witness: a concrete fresh save at time 0 with cookie max-age 10,
followed by a load at time 1, succeeds and returns the saved value map. -/
theorem save_then_load_roundtrip_witness :
    c4sess.id ≠ "" ∧
    ∃ s3, (loadOp "_" 1 [c4row]
        { id := c4sess.id, values := [], isNew := true }).1 = Except.ok s3 ∧
      ∀ k, k ≠ "_" ++ "created" → k ≠ "_" ++ "modified" → k ≠ "_" ++ "expires" →
        List.lookup k s3.values = List.lookup k [("k", GoVal.vint 7)] := by
  exact save_then_load_roundtrip "_" 0 1 10 0 0 (List.replicate 32 0)
    { id := "", values := [("k", GoVal.vint 7)], isNew := true } [] [c4row] c4sess
    rfl rfl (by decide) rfl rfl rfl
    (by
      intro r h
      have h1 : (some r : Option Row) = some c4row := h.symm.trans rfl
      injection h1 with h2
      rw [h2]
      decide)

/-- C5 witness: with now = 10, a row expiring at 5 makes load return the
expired error, log the detection and leave the table unchanged. -/
theorem load_expired_distinct_error_witness :
    loadOp "_" 10 [{ id := "a", data := some [], created := 0, modified := 0, expires := 5 }]
      { id := "a", values := [], isNew := true } =
      (Except.error LoadErr.expired, true,
       [{ id := "a", data := some [], created := 0, modified := 0, expires := 5 }]) := by
  exact (load_expired_distinct_error "_" 10
    [{ id := "a", data := some [], created := 0, modified := 0, expires := 5 }]
    { id := "a", values := [], isNew := true }
    { id := "a", data := some [], created := 0, modified := 0, expires := 5 }
    rfl).1 (by decide)

/-- C6 witness: a cookie value that fails decoding makes New return a
fresh is-new session together with the decode error. -/
theorem new_error_contract_witness :
    NewOp "_" 0 []
      (fun s => if s = "good" then Except.ok "sid1" else Except.error ()) "bad" =
      ({ id := "", values := [], isNew := true }, some NewErr.decodeFail) := by
  exact (new_error_contract "_" 0 []
    (fun s => if s = "good" then Except.ok "sid1" else Except.error ()) "bad" "sid1"
    { id := "x", data := none, created := 0, modified := 0, expires := 0 }
    (by decide)).1 rfl

/-- C7 (counterexample): the claim says the generated identifier has 26
characters; encoding 32 bytes in base32 and trimming the padding yields 52
characters, as evaluation at the all-zero byte string shows. -/
theorem generated_id_length_concrete :
    (generateID (List.replicate 32 0)).length = 52 ∧
    ¬ (generateID (List.replicate 32 0)).length = 26 := by
  exact ⟨rfl, by decide⟩

/-- C7 (amended): saving a session with no identifier sets it to the
base32 encoding of 32 random bytes with the padding trimmed, which is a
52-character string containing no padding character. -/
theorem generated_id_is_52_chars (bs : List Nat) (h : bs.length = 32) :
    (generateID bs).length = 52 ∧ '=' ∉ generateID bs := by
  obtain ⟨h1, h2⟩ := generateID_spec bs h
  exact ⟨h1, fun hm => h2 '=' hm rfl⟩

/-- C7 witness: the all-zero 32-byte string has length 32 and its
generated identifier has 52 characters and no padding. -/
theorem generated_id_is_52_chars_witness :
    (List.replicate 32 (0 : Nat)).length = 32 ∧
    ((generateID (List.replicate 32 0)).length = 52 ∧
     '=' ∉ generateID (List.replicate 32 0)) :=
  ⟨rfl, generated_id_is_52_chars (List.replicate 32 0) rfl⟩

theorem cleanupRun_post_done (evs : List CEvent) :
    ∀ pre post, cleanupRun evs = pre ++ CAction.signalDone :: post → post = [] := by
  induction evs with
  | nil =>
    intro pre post h
    simp only [cleanupRun] at h
    cases pre <;> simp_all
  | cons ev rest ih =>
    intro pre post h
    cases ev
    case tick =>
      simp only [cleanupRun] at h
      cases pre with
      | nil => simp at h
      | cons a pre2 =>
        simp only [List.cons_append, List.cons.injEq] at h
        exact ih pre2 post h.2
    case quit =>
      simp only [cleanupRun] at h
      cases pre with
      | nil =>
        simp only [List.nil_append, List.cons.injEq] at h
        exact h.2.symm
      | cons a pre2 =>
        simp only [List.cons_append, List.cons.injEq] at h
        exact absurd h.2 (by simp)

theorem cleanupRun_done_of_quit (evs : List CEvent) (h : CEvent.quit ∈ evs) :
    CAction.signalDone ∈ cleanupRun evs := by
  induction evs with
  | nil => simp at h
  | cons ev rest ih =>
    cases ev
    case quit => simp [cleanupRun]
    case tick =>
      simp only [List.mem_cons] at h
      rcases h with h | h
      · exact absurd h (by decide)
      · simp [cleanupRun, ih h]

theorem cleanupRun_stops_after_quit (evs rest : List CEvent) :
    cleanupRun (evs ++ CEvent.quit :: rest) = cleanupRun (evs ++ [CEvent.quit]) := by
  induction evs with
  | nil => rfl
  | cons ev evs2 ih =>
    cases ev
    case quit => rfl
    case tick => exact congrArg (fun l => CAction.sweep :: l) ih

/-- C8: in the trace model of the cleanup task, the done signal is the
last action ever emitted (nothing, in particular no sweep, follows it);
whenever the quit signal is among the observed events the done signal is
emitted, so the blocked stop call is released; and every event after the
quit signal is ignored, so no tick after it can cause a sweep. -/
theorem stop_cleanup_halts :
    (∀ (evs : List CEvent) (pre post : List CAction),
        cleanupRun evs = pre ++ CAction.signalDone :: post → post = []) ∧
    (∀ evs : List CEvent, CEvent.quit ∈ evs → CAction.signalDone ∈ cleanupRun evs) ∧
    (∀ evs rest : List CEvent,
        cleanupRun (evs ++ CEvent.quit :: rest) = cleanupRun (evs ++ [CEvent.quit])) :=
  ⟨cleanupRun_post_done, cleanupRun_done_of_quit, cleanupRun_stops_after_quit⟩

/-- C8 witness: on the event trace tick, quit the task sweeps once and
signals done last; a tick after quit changes nothing. -/
theorem stop_cleanup_halts_witness :
    ([] : List CAction) = [] ∧
    CAction.signalDone ∈ cleanupRun [CEvent.tick, CEvent.quit] ∧
    cleanupRun ([CEvent.tick] ++ CEvent.quit :: [CEvent.tick]) =
      cleanupRun ([CEvent.tick] ++ [CEvent.quit]) :=
  ⟨stop_cleanup_halts.1 [CEvent.tick, CEvent.quit] [CAction.sweep] [] rfl,
   stop_cleanup_halts.2.1 [CEvent.tick, CEvent.quit] (by decide),
   stop_cleanup_halts.2.2 [CEvent.tick] [CEvent.tick]⟩

theorem saveMethod_isNew (kp : String) (nowTs maxAge : Int) (sess : Session)
    (db : List Row) (hnew : sess.isNew = true) (row : Row) (s2 : Session)
    (hins : insertOp kp nowTs maxAge sess = Except.ok (row, s2)) :
    saveMethod kp nowTs maxAge sess db = Except.ok (replaceExec db row, s2) := by
  unfold saveMethod
  rw [hnew]
  simp only [if_true, hins]

theorem saveMethod_update (kp : String) (nowTs maxAge : Int) (sess : Session)
    (db : List Row) (hnew : sess.isNew = false) (c e2 : Int)
    (hcr : readInt64Key sess.values (kp ++ "created") nowTs = Except.ok c)
    (he2 : saveExpiredAt (List.lookup (kp ++ "expires") sess.values) nowTs maxAge =
      Except.ok e2) :
    saveMethod kp nowTs maxAge sess db =
      Except.ok
        (updateExec db sess.id (some (stripMeta kp sess.values)) c e2,
         { sess with values := stripMeta kp sess.values }) := by
  unfold saveMethod
  rw [hnew]
  simp only [Bool.false_eq_true, if_false, hcr, he2]

theorem saveExpiredAt_ok (vs : Values) (k : String) (nowTs maxAge : Int)
    (h : intTypedB vs k = true) :
    ∃ e, saveExpiredAt (List.lookup k vs) nowTs maxAge = Except.ok e := by
  unfold intTypedB at h
  rcases hl : List.lookup k vs with _ | v
  · exact ⟨nowTs + maxAge, rfl⟩
  · rcases v with i | s
    · exact ⟨_, rfl⟩
    · rw [hl] at h
      simp at h

/-- C9: the reads of the prefixed created and expires keys in insert and
in the update path of save go through unchecked int64 type assertions:
when each key is absent or bound to an int64 both operations complete
without a panic, and a map binding one of them to a non-int64 value makes
the operation panic rather than return an error. -/
theorem meta_key_type_assertions :
    (∀ (kp : String) (nowTs maxAge : Int) (sess : Session) (db : List Row),
        intTypedB sess.values (kp ++ "created") = true →
        intTypedB sess.values (kp ++ "expires") = true →
        (∃ r s2, insertOp kp nowTs maxAge sess = Except.ok (r, s2)) ∧
        (∃ db2 s2, saveMethod kp nowTs maxAge sess db = Except.ok (db2, s2))) ∧
    insertOp "_" 0 0
      { id := "x", values := [("_created", GoVal.vstr "boom")], isNew := true } =
      Except.error () ∧
    saveMethod "_" 0 0
      { id := "x", values := [("_expires", GoVal.vstr "boom")], isNew := false } [] =
      Except.error () := by
  refine ⟨?_, rfl, rfl⟩
  intro kp nowTs maxAge sess db hc he
  obtain ⟨c, e, hcr, her, hins⟩ := insertOp_ok kp nowTs maxAge sess hc he
  constructor
  · exact ⟨_, _, hins⟩
  · by_cases hnew : sess.isNew = true
    · exact ⟨_, _, saveMethod_isNew kp nowTs maxAge sess db hnew _ _ hins⟩
    · have hnew2 : sess.isNew = false := by simpa using hnew
      obtain ⟨e2, he2⟩ := saveExpiredAt_ok sess.values (kp ++ "expires") nowTs maxAge he
      exact ⟨_, _, saveMethod_update kp nowTs maxAge sess db hnew2 c e2 hcr he2⟩

/-- C9 witness: a map with no metadata keys satisfies the typing
precondition and both operations complete. -/
theorem meta_key_type_assertions_witness :
    intTypedB [("k", GoVal.vint 3)] ("_" ++ "created") = true ∧
    intTypedB [("k", GoVal.vint 3)] ("_" ++ "expires") = true ∧
    ((∃ r s2, insertOp "_" 0 5
        { id := "y", values := [("k", GoVal.vint 3)], isNew := true } =
        Except.ok (r, s2)) ∧
     (∃ db2 s2, saveMethod "_" 0 5
        { id := "y", values := [("k", GoVal.vint 3)], isNew := true } [] =
        Except.ok (db2, s2))) :=
  ⟨rfl, rfl, meta_key_type_assertions.1 "_" 0 5
    { id := "y", values := [("k", GoVal.vint 3)], isNew := true } [] rfl rfl⟩

/-- C10: Delete expires the response cookie and empties the value map
before it runs the delete statement, so when the database delete fails the
error is returned with the value map already empty, the cookie already
cleared, and the table unchanged. -/
theorem delete_clears_before_db_delete
    (sess : Session) (db : List Row) (hid : sess.id ≠ "") :
    (DeleteOp sess db true).1.values = [] ∧
    (DeleteOp sess db true).2.1 = true ∧
    (DeleteOp sess db true).2.2.1 = db ∧
    (DeleteOp sess db true).2.2.2 = some () := by
  unfold DeleteOp RemoveOp
  rw [if_neg hid]
  simp

/-- C10 witness: a concrete failing delete returns the error while the
session values are already cleared and the cookie already expired. -/
theorem delete_clears_before_db_delete_witness :
    (DeleteOp { id := "z", values := [("a", GoVal.vint 1)], isNew := false } [] true).1.values
        = [] ∧
    (DeleteOp { id := "z", values := [("a", GoVal.vint 1)], isNew := false } [] true).2.1
        = true ∧
    (DeleteOp { id := "z", values := [("a", GoVal.vint 1)], isNew := false } [] true).2.2.1
        = [] ∧
    (DeleteOp { id := "z", values := [("a", GoVal.vint 1)], isNew := false } [] true).2.2.2
        = some () :=
  delete_clears_before_db_delete
    { id := "z", values := [("a", GoVal.vint 1)], isNew := false } [] (by decide)

end SqlStore
